import Mathlib

/-!
Verification of the lead-enrichment feature: a shallow embedding of the
website scraper (`WebsiteScraperService`), the AI analysis service
(`CompanyAnalysisService`), the enrichment controller
(`LeadEnrichmentController.enrichLeads`) and the analysis cache model
(`WebsiteAnalysisCache`), together with theorems settling the claims about
batch capping, verdict fall-backs, numeric coercion, content extraction,
URL normalization, the binary topic check, the parallel topic matcher,
cache freshness, and post filtering.

External effects (HTTP fetches and AI completions) are modelled as explicit
oracle functions passed to the embedded definitions, so everything here is
executable and total.
-/

/-! ## JavaScript string primitives

The services use JS string operations (`trim`, `toUpperCase`, `includes`,
`startsWith`, `parseInt`, `parseFloat`).  They are modelled over `List Char`
(UTF-16 subtleties such as surrogate pairs are out of scope; the claims only
involve code points where JS and Lean agree). -/

/-- The JS whitespace characters relevant here (ASCII subset of the
WhiteSpace and LineTerminator productions used by `String.prototype.trim`). -/
def jsIsWsChar (c : Char) : Bool :=
  c == ' ' || c == '\t' || c == '\n' || c == '\r'

/-- `String.prototype.trim` on a character list: drop whitespace from both ends. -/
def trimL (l : List Char) : List Char :=
  ((l.dropWhile jsIsWsChar).reverse.dropWhile jsIsWsChar).reverse

/-- `String.prototype.trim`. -/
def jsTrim (s : String) : String := String.mk (trimL s.data)

/-- `String.prototype.toUpperCase` (ASCII; `Char.toUpper` agrees with JS there). -/
def jsToUpper (s : String) : String := String.mk (s.data.map Char.toUpper)

/-- Boolean test that `pat` occurs at the head of `l`. -/
def startsWithL (pat : List Char) : List Char → Bool
  | [] => pat.isEmpty
  | c :: cs =>
    match pat with
    | [] => true
    | p :: ps => p == c && startsWithL ps cs

/-- Boolean test that `pat` occurs contiguously somewhere in `l`. -/
def containsSubL (pat : List Char) : List Char → Bool
  | [] => pat.isEmpty
  | c :: cs => startsWithL pat (c :: cs) || containsSubL pat cs

/-- `String.prototype.includes`. -/
def jsIncludes (s pat : String) : Bool := containsSubL pat.data s.data

/-- `String.prototype.startsWith`. -/
def jsStartsWith (s pre : String) : Bool := startsWithL pre.data s.data

/-- `String.prototype.substring(0, n)`. -/
def jsSubstring (s : String) (n : ℕ) : String := String.mk (s.data.take n)

/-- JS truthiness on an optional string field: `undefined` and `""` are falsy. -/
def jsTruthyStr : Option String → Option String
  | none => none
  | some s => if s = "" then none else some s

/-- Numeric value of a list of decimal digits. -/
def digitsVal (ds : List Char) : ℕ :=
  ds.foldl (fun n c => 10 * n + (c.toNat - 48)) 0

/-- `parseInt` on a string: skip leading whitespace, optional sign, leading
decimal digits; `none` models `NaN`.  (Hex literals and exponents are not
modelled; the oracle protocol only produces plain decimals.) -/
def jsParseIntStr (s : String) : Option ℤ :=
  match s.data.dropWhile jsIsWsChar with
  | '-' :: rest =>
    let ds := rest.takeWhile Char.isDigit
    if ds = [] then none else some (-(digitsVal ds : ℤ))
  | '+' :: rest =>
    let ds := rest.takeWhile Char.isDigit
    if ds = [] then none else some (digitsVal ds : ℤ)
  | t =>
    let ds := t.takeWhile Char.isDigit
    if ds = [] then none else some (digitsVal ds : ℤ)

/-- Unsigned part of `parseFloat`: digits, optionally a point and more digits. -/
def parseUnsignedFloat (t : List Char) : Option ℚ :=
  let intDs := t.takeWhile Char.isDigit
  match t.dropWhile Char.isDigit with
  | '.' :: r2 =>
    let fracDs := r2.takeWhile Char.isDigit
    if intDs = [] ∧ fracDs = [] then none
    else some ((digitsVal intDs : ℚ) + (digitsVal fracDs : ℚ) / (10 ^ fracDs.length : ℚ))
  | _ => if intDs = [] then none else some (digitsVal intDs : ℚ)

/-- `parseFloat` on a string; `none` models `NaN`. -/
def jsParseFloatStr (s : String) : Option ℚ :=
  match s.data.dropWhile jsIsWsChar with
  | '-' :: r => (parseUnsignedFloat r).map Neg.neg
  | '+' :: r => parseUnsignedFloat r
  | t => parseUnsignedFloat t

/-- JS `Number` → integer truncation toward zero, as performed by `parseInt`
on a numeric argument (for numbers printed in plain decimal form). -/
def truncInt (q : ℚ) : ℤ := q.num.tdiv q.den

/-! ## JSON values

`JSON.parse` output plus JS `undefined` (for absent object fields). -/

/-- A parsed JSON value; `jsUndefined` models JS `undefined`. -/
inductive JsonVal where
  | jsUndefined : JsonVal
  | jnull : JsonVal
  | jbool : Bool → JsonVal
  | jnum : ℚ → JsonVal
  | jstr : String → JsonVal
  | jarr : List JsonVal → JsonVal
  | jobj : List (String × JsonVal) → JsonVal

/-- JS property access `v[k]` for the non-throwing cases: on objects it is the
field value (or `undefined`), on other primitives it is `undefined`.  Access on
`null`/`undefined` throws and is handled at the call site. -/
def getField (v : JsonVal) (k : String) : JsonVal :=
  match v with
  | .jobj fields => (fields.lookup k).getD .jsUndefined
  | _ => .jsUndefined

/-- JS truthiness of a JSON value. -/
def jsTruthyJson : JsonVal → Bool
  | .jsUndefined => false
  | .jnull => false
  | .jbool b => b
  | .jnum q => decide (q ≠ 0)
  | .jstr s => decide (s ≠ "")
  | .jarr _ => true
  | .jobj _ => true

/-- JS `a || d` over JSON values. -/
def jsOrJson (a d : JsonVal) : JsonVal := if jsTruthyJson a then a else d

/-- `v === true` on a JSON value. -/
def isBoolTrue : JsonVal → Bool
  | .jbool true => true
  | _ => false

/-- `parseInt` applied to a JSON value (numbers are truncated toward zero,
strings are parsed, everything else is `NaN`). -/
def jsParseIntJ : JsonVal → Option ℤ
  | .jnum q => some (truncInt q)
  | .jstr s => jsParseIntStr s
  | _ => none

/-- `parseFloat` applied to a JSON value. -/
def jsParseFloatJ : JsonVal → Option ℚ
  | .jnum q => some q
  | .jstr s => jsParseFloatStr s
  | _ => none

/-! ## WebsiteScraperService

`services/WebsiteScraperService.js`.  The network side of `scrapeWebsite`
(the `axios.get` call plus the cheerio extraction of title / description /
headings / body, lines 21-78) is modelled by an oracle
`net : String → Option ScrapedData`: `none` covers every network error,
timeout, oversize response and non-2xx status (the `catch` branch), `some`
is the successfully extracted record. -/

/-- The record returned by `scrapeWebsite` (lines 66-73): `headings` is the
already-joined string, `content` the whitespace-collapsed body text. -/
structure ScrapedData where
  url : String
  title : String
  description : String
  headings : String
  content : String
  scrapedAt : String
deriving DecidableEq

/-- `scrapeWebsite(url)` (lines 15-79): a falsy url or a url that does not
start with `"http"` is rejected up front (`return null`); otherwise the fetch
and extraction are performed by the `net` oracle. -/
def scrapeWebsite (net : String → Option ScrapedData) (url : String) : Option ScrapedData :=
  if url = "" ∨ jsStartsWith url "http" = false then none
  else net url

/-- The chunked batch loop `for (let i = 0; i < xs.length; i += n)` used by
`scrapeMultiple`, `filterCompaniesByTopicParallel` and `filterPostsByTopic`:
apply `f` to each window of `n` consecutive elements and concatenate.
(`Promise.all`/`allSettled` preserve window order, so concatenation models the
sequential `push` of settled results; the inter-batch pacing delay has no
observable effect on the value.)  Faithful for `n ≥ 1`; the JS loop does not
terminate for `n = 0`. -/
def processChunks {α β : Type} (n : ℕ) (f : List α → List β) : List α → List β
  | [] => []
  | x :: xs => f (x :: xs.take (n - 1)) ++ processChunks n f (xs.drop (n - 1))
termination_by l => l.length
decreasing_by
  simp only [List.length_drop, List.length_cons]
  omega

/-- `scrapeMultiple(urls, concurrency)` (lines 87-112): fetch in windows,
keep the fulfilled non-null results in order. -/
def scrapeMultiple (net : String → Option ScrapedData) (urls : List String)
    (concurrency : ℕ) : List ScrapedData :=
  processChunks concurrency (fun batch => batch.filterMap (scrapeWebsite net)) urls

/-- `extractTextForAnalysis(scrapedData)` (lines 119-130): build the four
labeled parts, keep those whose (label + value) string is longer than 10
characters, join with blank lines. -/
def extractTextForAnalysis (scrapedData : Option ScrapedData) : String :=
  match scrapedData with
  | none => ""
  | some d =>
    let parts : List String :=
      ["Title: " ++ d.title,
       "Description: " ++ d.description,
       "Key Sections: " ++ d.headings,
       "Content: " ++ jsSubstring d.content 2000]
    String.intercalate "\n\n" (parts.filter (fun p => 10 < p.length))

/-! ## CompanyAnalysisService: graded verdicts

`services/CompanyAnalysisService.js`.  The AI calls (`callAI`,
`callAIFlexible`) are modelled as oracle values: `Except.error m` is a thrown
request error, `Except.ok` is the raw completion text.  For
`analyzeCompanyRelevance` the subsequent `JSON.parse` of the response is part
of the oracle boundary: `Except.ok none` is a response that `JSON.parse`
rejects, `Except.ok (some v)` a response parsing to `v`. -/

/-- Truthiness of the `this.apiKey` field (an env var: absent or empty is falsy). -/
def hasApiKey : Option String → Bool
  | none => false
  | some s => decide (s ≠ "")

/-- The verdict object built by `parseAnalysisResponse` /
`analyzeCompanyRelevance`.  `isRelevant = none` models JS `null`;
`keyMatches`/`concerns` are `jsUndefined` in the fall-back objects, which omit
those fields. -/
structure Verdict where
  isRelevant : Option Bool
  confidence : ℤ
  score : ℚ
  reasoning : JsonVal
  keyMatches : JsonVal
  concerns : JsonVal

/-- The fall-back verdict of the `catch` in `parseAnalysisResponse` and of the
guard/`catch` in `analyzeCompanyRelevance` (lines 155-162, 170-176, 435-442). -/
def failVerdict (msg : String) : Verdict :=
  { isRelevant := none, confidence := 0, score := 0,
    reasoning := .jstr msg, keyMatches := .jsUndefined, concerns := .jsUndefined }

/-- `parseAnalysisResponse(response)` (lines 423-443).  The argument is the
`JSON.parse` outcome of the raw response (`none` = parse threw).  A parsed
`null` also lands in the `catch` branch, because `parsed.isRelevant` throws on
`null`.  On success: `isRelevant === true`, `parseInt(confidence) || 0`,
`parseFloat(score) || 0`, `reasoning || ''`, `keyMatches || []`,
`concerns || []`. -/
def parseAnalysisResponse (parsed : Option JsonVal) : Verdict :=
  match parsed with
  | none => failVerdict "Failed to parse AI response"
  | some .jnull => failVerdict "Failed to parse AI response"
  | some .jsUndefined => failVerdict "Failed to parse AI response"
  | some v =>
    { isRelevant := some (isBoolTrue (getField v "isRelevant"))
      confidence := (jsParseIntJ (getField v "confidence")).getD 0
      score := (jsParseFloatJ (getField v "score")).getD 0
      reasoning := jsOrJson (getField v "reasoning") (.jstr "")
      keyMatches := jsOrJson (getField v "keyMatches") (.jarr [])
      concerns := jsOrJson (getField v "concerns") (.jarr []) }

/-- `analyzeCompanyRelevance(company, websiteContent, topic)` (lines 154-178):
missing credential → fall-back verdict; thrown AI call → fall-back verdict;
otherwise parse the response.  `oracle` is the outcome of
`callAI(buildAnalysisPrompt(company, websiteContent, topic))` followed by
`JSON.parse`. -/
def analyzeCompanyRelevance (apiKey : Option String)
    (oracle : Except String (Option JsonVal)) : Verdict :=
  if hasApiKey apiKey = false then
    failVerdict "AI analysis not configured"
  else
    match oracle with
    | .error msg => failVerdict ("Analysis failed: " ++ msg)
    | .ok parsed => parseAnalysisResponse parsed

/-! ## CompanyAnalysisService: binary topic matching -/

/-- `checkCompanyTopicRelation(websiteUrl, websiteContent, topic)`
(lines 568-613): empty or whitespace-only content → `false` without an AI
call; a thrown AI call → `false`; otherwise `true` iff
`response.trim().toUpperCase().includes('YES')`.  `oracle` is the outcome of
`callAIFlexible` on the prompt built from the url, the (3000-char truncated)
content and the topic; the prompt construction only feeds the oracle, so it
is folded into the oracle argument. -/
def checkCompanyTopicRelation (oracle : Except String String)
    (websiteContent : String) : Bool :=
  if websiteContent = "" ∨ jsTrim websiteContent = "" then false
  else
    match oracle with
    | .error _ => false
    | .ok response => jsIncludes (jsToUpper (jsTrim response)) "YES"

/-- A company record as consumed by `filterCompaniesByTopicParallel`
(duck-typed: any of the three website-ish fields may be present). -/
structure Company where
  name : Option String := none
  companyName : Option String := none
  website : Option String := none
  website_url : Option String := none
  domain : Option String := none
deriving DecidableEq

/-- Environment of the parallel matcher: the fetch oracle and the binary AI
oracle keyed by `(fullUrl, websiteContent, topic)`. -/
structure MatcherEnv where
  net : String → Option ScrapedData
  ai : String → String → String → Except String String

/-- `company.website || company.website_url || company.domain` (line 495). -/
def resolveCompanyUrl (c : Company) : Option String :=
  jsTruthyStr c.website <|> jsTruthyStr c.website_url <|> jsTruthyStr c.domain

/-- Protocol normalization inside `processCompany` (lines 503-506): prepend
`https://` when the url has neither `http://` nor `https://`. -/
def resolveFullUrl (url : String) : String :=
  if jsStartsWith url "http://" || jsStartsWith url "https://" then url
  else "https://" ++ url

/-- The `isRelated` value computed by `processCompany` (lines 493-535):
`none` models JS `null` — no website url (line 499) or failed scrape
(line 514); otherwise the boolean topic verdict on the extracted text. -/
def relatedOf (env : MatcherEnv) (topic : String) (c : Company) : Option Bool :=
  match resolveCompanyUrl c with
  | none => none
  | some websiteUrl =>
    let fullUrl := resolveFullUrl websiteUrl
    match scrapeWebsite env.net fullUrl with
    | none => none
    | some scraped =>
      let websiteContent := extractTextForAnalysis (some scraped)
      some (checkCompanyTopicRelation (env.ai fullUrl websiteContent topic) websiteContent)

/-- The unit of work of the parallel matcher: `{ company, index, isRelated }`
(lines 499, 529, 533; all three return sites carry the same company and
index). -/
structure ProcResult where
  company : Company
  index : ℕ
  isRelated : Option Bool
deriving DecidableEq

/-- `processCompany(company, index)` (lines 493-535). -/
def processCompany (env : MatcherEnv) (topic : String) (c : Company) (index : ℕ) : ProcResult :=
  { company := c, index := index, isRelated := relatedOf env topic c }

/-- Insertion of `x` into `l` according to the boolean comparator `le`
(`le x y` = "`x` may come before `y`"). -/
def insertLe {α : Type} (le : α → α → Bool) (x : α) : List α → List α
  | [] => [x]
  | y :: ys => if le x y then x :: y :: ys else y :: insertLe le x ys

/-- `Array.prototype.sort(cmp)` modelled as insertion sort: any comparison
sort agrees with it on the lists at issue here (distinct keys, or keys
already in order). -/
def jsSort {α : Type} (le : α → α → Bool) : List α → List α
  | [] => []
  | x :: xs => insertLe le x (jsSort le xs)

/-- `filterCompaniesByTopicParallel(companies, topic, scraperService,
maxConcurrent)` (lines 485-557): early return on an empty list; windowed
processing of the companies paired with their original index; sort by index;
keep exactly `isRelated === true`; project the company. -/
def filterCompaniesByTopicParallel (env : MatcherEnv) (topic : String)
    (companies : List Company) (maxConcurrent : ℕ) : List Company :=
  if companies = [] then []
  else
    let results := processChunks maxConcurrent
      (fun batch => batch.map (fun ic => processCompany env topic ic.2 ic.1))
      companies.enum
    (((jsSort (fun a b => decide (a.index ≤ b.index)) results).filter
        (fun r => r.isRelated == some true)).map (fun r => r.company))

/-! ## CompanyAnalysisService: post filtering -/

/-- A social post as consumed by `filterPostsByTopic`; ids are the integers
the oracle protocol asks for, `text` collapses `caption || text || content`
(used only in the prompt). -/
structure Post where
  id : ℤ
  text : String := ""
deriving DecidableEq

/-- The per-chunk response processing of `filterPostsByTopic` (lines 291-307):
a thrown call, a response without a bracketed JSON array, or a non-array parse
contribute no ids (`Except.error` / `.ok none`); a parsed array contributes
its ids. -/
def chunkIds : Except String (Option (List ℤ)) → List ℤ
  | .ok (some ids) => ids
  | _ => []

/-- `filterPostsByTopic(posts, topic, chunkSize)` (lines 256-314): missing
credential or empty input returns the input unchanged; otherwise ids are
collected across chunks (the `Set` union is modelled by list concatenation,
which has the same membership) and the posts are filtered by id membership.
`oracle` maps each simplified chunk to its response outcome. -/
def filterPostsByTopic (apiKey : Option String)
    (oracle : List Post → Except String (Option (List ℤ)))
    (posts : List Post) (chunkSize : ℕ) : List Post :=
  if hasApiKey apiKey = false ∨ posts = [] then posts
  else
    let relevantPostIds := processChunks chunkSize (fun chunk => chunkIds (oracle chunk)) posts
    posts.filter (fun post => relevantPostIds.contains post.id)

/-! ## Batch analysis and the enrichment pipeline

`analyzeCompanies` (service lines 451-473) and
`LeadEnrichmentController.enrichLeads` (controller lines 9-116). -/

/-- A lead record flowing through `enrichLeads`: the duck-typed input fields
plus the fields attached by the scraping and analysis stages. -/
structure Lead where
  name : Option String := none
  industry : Option String := none
  location : Option String := none
  estimated_num_employees : Option ℤ := none
  short_description : Option String := none
  website : Option String := none
  domain : Option String := none
  website_url : Option String := none
  websiteContent : Option String := none
  websiteScraped : Option Bool := none
  scrapedAt : Option String := none
  aiAnalysis : Option Verdict := none
  relevanceScore : Option ℚ := none

/-- Environment of the graded pipeline: the fetch oracle, the graded AI
oracle (keyed by the company record, the website content and the topic, which
determine the prompt; the value is the `callAI` + `JSON.parse` outcome as in
`analyzeCompanyRelevance`), and the configured credential. -/
structure PipelineEnv where
  net : String → Option ScrapedData
  ai : Lead → String → String → Except String (Option JsonVal)
  apiKey : Option String

/-- `lead.website || lead.domain || lead.website_url` (controller lines 47,
55). -/
def resolveLeadUrl (l : Lead) : Option String :=
  jsTruthyStr l.website <|> jsTruthyStr l.domain <|> jsTruthyStr l.website_url

/-- `analyzeCompanies(companies, topic)` (service lines 451-473): per lead,
attach the graded verdict and `relevanceScore = analysis.score`, then sort by
score descending (`(a, b) => b.relevanceScore - a.relevanceScore`; every
element carries a score at this point).  The inter-call pacing delay has no
observable effect on the value. -/
def analyzeCompanies (env : PipelineEnv) (companies : List Lead) (topic : String) : List Lead :=
  let results := companies.map (fun company =>
    let analysis := analyzeCompanyRelevance env.apiKey
      (env.ai company (company.websiteContent.getD "") topic)
    { company with aiAnalysis := some analysis, relevanceScore := some analysis.score })
  jsSort (fun a b => decide (b.relevanceScore.getD 0 ≤ a.relevanceScore.getD 0)) results

/-- The request body of `POST /api/lead-enrichment/enrich`; `none` models an
absent field, for which the destructuring defaults of controller lines 11-18
apply. -/
structure EnrichRequest where
  leads : List Lead := []
  topic : Option String := none
  icp_description : Option String := none
  min_relevance_score : Option ℚ := none
  enable_website_scraping : Option Bool := none
  enable_ai_analysis : Option Bool := none

/-- The `metadata` object of the success response (controller lines 98-106). -/
structure EnrichMetadata where
  total_input : ℕ
  total_processed : ℕ
  total_enriched : ℕ
  website_scraping_enabled : Bool
  ai_analysis_enabled : Bool
  min_relevance_score : ℚ
  topic : String

/-- The success response of `enrichLeads` (controller lines 95-107). -/
structure EnrichResponse where
  data : List Lead
  metadata : EnrichMetadata

/-- A 400 error response `{ error, message }`. -/
structure ApiError where
  error : String
  message : String

/-- Step 1 of `enrichLeads` (controller lines 42-69): collect the resolvable
website urls, scrape them in windows of 5, and re-associate each scraped
record with its lead by url equality, attaching `websiteContent`,
`websiteScraped` and `scrapedAt`. -/
def scrapeStage (env : PipelineEnv) (enriched0 : List Lead) : List Lead :=
  let urls := enriched0.filterMap resolveLeadUrl
  if urls = [] then enriched0
  else
    let scrapedData := scrapeMultiple env.net urls 5
    enriched0.map (fun lead =>
      let scraped : Option ScrapedData :=
        match resolveLeadUrl lead with
        | some u => scrapedData.find? (fun s => s.url == u)
        | none => none
      { lead with
        websiteContent := scraped.map (fun s => extractTextForAnalysis (some s)),
        websiteScraped := some scraped.isSome,
        scrapedAt := scraped.map (fun s => s.scrapedAt) })

/-- `enrichLeads(req, res)` (controller lines 9-116): validate, cap the batch
at 50, optionally scrape, optionally analyze, filter by minimum score, sort
descending.  `min_relevance_score` is modelled as the number the request
validator guarantees, so `parseFloat` is the identity on it. -/
def enrichLeads (env : PipelineEnv) (req : EnrichRequest) : Except ApiError EnrichResponse :=
  let min_relevance_score := req.min_relevance_score.getD 5
  let enable_website_scraping := req.enable_website_scraping.getD true
  let enable_ai_analysis := req.enable_ai_analysis.getD true
  if req.leads.length = 0 then
    .error { error := "Invalid request",
             message := "leads array is required and must not be empty" }
  else if (jsTruthyStr req.topic).isNone ∧ (jsTruthyStr req.icp_description).isNone then
    .error { error := "Missing required field",
             message := "Either \"topic\" or \"icp_description\" is required for enrichment" }
  else
    let targetTopic :=
      match jsTruthyStr req.topic with
      | some t => t
      | none => req.icp_description.getD ""
    let maxLeadsToProcess := min req.leads.length 50
    let enriched0 := req.leads.take maxLeadsToProcess
    let enriched1 :=
      if enable_website_scraping then scrapeStage env enriched0 else enriched0
    let enriched2 :=
      if enable_ai_analysis then analyzeCompanies env enriched1 targetTopic else enriched1
    let filteredLeads := enriched2.filter (fun lead =>
      !enable_ai_analysis || decide (min_relevance_score ≤ lead.relevanceScore.getD 0))
    let sorted := jsSort
      (fun a b => decide (b.relevanceScore.getD 0 ≤ a.relevanceScore.getD 0)) filteredLeads
    .ok { data := sorted,
          metadata := { total_input := req.leads.length,
                        total_processed := maxLeadsToProcess,
                        total_enriched := sorted.length,
                        website_scraping_enabled := enable_website_scraping,
                        ai_analysis_enabled := enable_ai_analysis,
                        min_relevance_score := min_relevance_score,
                        topic := targetTopic } }

/-! ## WebsiteAnalysisCache

`models/WebsiteAnalysisCache.js`.  The `website_analysis_cache` table has a
unique key `(domain, topic)` (the `ON CONFLICT` target), so the store is
modelled as a keyed map; timestamps are integers (seconds).  `analysis_data`
is stored in serialized form (`JSON.stringify`), modelled as the string
itself. -/

/-- A row of `website_analysis_cache`.  `created_at` and `updated_at` are
column defaults on insert; the conflict branch of `upsert` updates
`updated_at` but never `created_at`. -/
structure CacheRow where
  domain : String
  topic : String
  analysis_data : String
  relevance_score : ℚ
  hit_count : ℕ
  created_at : ℤ
  last_accessed_at : ℤ
  updated_at : ℤ

/-- The cache table, keyed by its unique index. -/
def Store : Type := String × String → Option CacheRow

/-- The freshness window of `findByDomain`: `INTERVAL '7 days'`, in seconds. -/
def freshnessWindow : ℤ := 7 * 24 * 60 * 60

namespace WebsiteAnalysisCache

/-- The row written by `upsert` (lines 15-32): a fresh insert gets
`hit_count = 1` and the column defaults for the timestamps; the `ON CONFLICT
... DO UPDATE` branch overwrites the analysis and score, increments
`hit_count`, refreshes `last_accessed_at`/`updated_at` and leaves
`created_at` untouched. -/
def upsertRow (st : Store) (now : ℤ) (domain analysisData : String)
    (relevanceScore : ℚ) (topic : String) : CacheRow :=
  match st (domain, topic) with
  | none =>
    { domain := domain, topic := topic, analysis_data := analysisData,
      relevance_score := relevanceScore, hit_count := 1,
      created_at := now, last_accessed_at := now, updated_at := now }
  | some old =>
    { old with
      analysis_data := analysisData
      relevance_score := relevanceScore
      hit_count := old.hit_count + 1
      last_accessed_at := now
      updated_at := now }

/-- `upsert({domain, analysisData, relevanceScore, topic})` (lines 13-39):
store the upserted row under its unique key and return it (`RETURNING *`). -/
def upsert (st : Store) (now : ℤ) (domain analysisData : String)
    (relevanceScore : ℚ) (topic : String) : Store × CacheRow :=
  (fun k => if k = (domain, topic) then
      some (upsertRow st now domain analysisData relevanceScore topic)
    else st k,
   upsertRow st now domain analysisData relevanceScore topic)

/-- `findByDomain(domain, topic)` (lines 44-69): select the row if its
`created_at` is within the last 7 days (`created_at > now - INTERVAL '7
days'`); on a hit, bump `hit_count` and `last_accessed_at` as a side effect
and return the selected (pre-bump) row; otherwise report a miss (the stale
row is not deleted). -/
def findByDomain (st : Store) (now : ℤ) (domain topic : String) : Store × Option CacheRow :=
  match st (domain, topic) with
  | none => (st, none)
  | some r =>
    if now - freshnessWindow < r.created_at then
      (fun k => if k = (domain, topic) then
          some { r with hit_count := r.hit_count + 1, last_accessed_at := now }
        else st k,
       some r)
    else (st, none)

end WebsiteAnalysisCache

/-! ## Generic lemmas about the sort and chunk loops -/

theorem length_insertLe {α : Type} (le : α → α → Bool) (x : α) (l : List α) :
    (insertLe le x l).length = l.length + 1 := by
  induction l with
  | nil => rfl
  | cons y ys ih =>
    simp only [insertLe]
    split
    · simp
    · simp [ih]

theorem length_jsSort {α : Type} (le : α → α → Bool) (l : List α) :
    (jsSort le l).length = l.length := by
  induction l with
  | nil => rfl
  | cons x xs ih => simp [jsSort, length_insertLe, ih]

theorem mem_insertLe {α : Type} (le : α → α → Bool) (x a : α) (l : List α) :
    a ∈ insertLe le x l ↔ a = x ∨ a ∈ l := by
  induction l with
  | nil => simp [insertLe]
  | cons y ys ih =>
    simp only [insertLe]
    split
    · simp [or_comm, or_left_comm]
    · simp [ih]
      tauto

theorem mem_jsSort {α : Type} (le : α → α → Bool) (a : α) (l : List α) :
    a ∈ jsSort le l ↔ a ∈ l := by
  induction l with
  | nil => simp [jsSort]
  | cons x xs ih => simp [jsSort, mem_insertLe, ih]

theorem jsSort_eq_self {α : Type} (le : α → α → Bool) (l : List α)
    (h : l.Pairwise (fun a b => le a b = true)) : jsSort le l = l := by
  induction l with
  | nil => rfl
  | cons x xs ih =>
    rw [List.pairwise_cons] at h
    rw [jsSort, ih h.2]
    cases xs with
    | nil => rfl
    | cons y ys => simp [insertLe, h.1 y (by simp)]

theorem processChunks_map {α β : Type} (n : ℕ) (g : α → β) (l : List α) :
    processChunks n (fun batch => batch.map g) l = l.map g := by
  induction l using processChunks.induct n (fun batch => batch.map g) with
  | case1 => rw [processChunks]; rfl
  | case2 x xs ih =>
    rw [processChunks, ih, ← List.map_append]
    simp

theorem processChunks_filterMap {α β : Type} (n : ℕ) (g : α → Option β) (l : List α) :
    processChunks n (fun batch => batch.filterMap g) l = l.filterMap g := by
  induction l using processChunks.induct n (fun batch => batch.filterMap g) with
  | case1 => rw [processChunks]; rfl
  | case2 x xs ih =>
    rw [processChunks, ih, ← List.filterMap_append]
    simp

/-! ## Lemmas about the string primitives -/

theorem startsWithL_iff (pat l : List Char) :
    startsWithL pat l = true ↔ ∃ r, l = pat ++ r := by
  induction l generalizing pat with
  | nil =>
    cases pat <;> simp [startsWithL]
  | cons c cs ih =>
    cases pat with
    | nil => simp [startsWithL]
    | cons p ps =>
      simp only [startsWithL, Bool.and_eq_true, beq_iff_eq, ih]
      constructor
      · rintro ⟨rfl, r, rfl⟩
        exact ⟨r, rfl⟩
      · rintro ⟨r, hr⟩
        rw [List.cons_append] at hr
        cases hr
        exact ⟨rfl, r, rfl⟩

theorem startsWithL_of_append (p1 p2 l : List Char)
    (h : startsWithL (p1 ++ p2) l = true) : startsWithL p1 l = true := by
  rw [startsWithL_iff] at h ⊢
  obtain ⟨r, rfl⟩ := h
  exact ⟨p2 ++ r, by simp⟩

theorem containsSubL_iff (pat l : List Char) :
    containsSubL pat l = true ↔ ∃ a b, l = a ++ pat ++ b := by
  induction l with
  | nil =>
    cases pat <;> simp [containsSubL, List.isEmpty]
  | cons c cs ih =>
    simp only [containsSubL, Bool.or_eq_true, startsWithL_iff, ih]
    constructor
    · rintro (⟨r, hr⟩ | ⟨a, b, rfl⟩)
      · exact ⟨[], r, by simp [hr]⟩
      · exact ⟨c :: a, b, by simp⟩
    · rintro ⟨a, b, hab⟩
      cases a with
      | nil =>
        left
        exact ⟨b, by simpa using hab⟩
      | cons a0 as =>
        right
        rw [List.cons_append, List.cons_append] at hab
        cases hab
        exact ⟨as, b, rfl⟩

/-! ## C2: fall-back verdicts of the graded oracle -/

/-- Helper: a nonempty prefix makes a JS string concatenation nonempty. -/
theorem append_ne_empty (s msg : String) (hs : s.data ≠ []) : (s ++ msg) ≠ "" := by
  intro h
  have h2 := congrArg String.data h
  rw [String.data_append] at h2
  simp only [List.append_eq_nil] at h2
  exact hs h2.1

/-- C2: for every oracle outcome and credential configuration,
`analyzeCompanyRelevance` (via `parseAnalysisResponse`) returns a verdict
with `isRelevant = null`, `score = 0` and a nonempty diagnostic `reasoning`
string whenever the credential is absent, the AI call throws, or the
response fails to parse as JSON; being a total function, it never throws
past the oracle boundary. -/
theorem claim_C2 (apiKey : Option String) (oracle : Except String (Option JsonVal)) :
    (hasApiKey apiKey = false →
      (analyzeCompanyRelevance apiKey oracle).isRelevant = none ∧
      (analyzeCompanyRelevance apiKey oracle).score = 0 ∧
      ∃ s, (analyzeCompanyRelevance apiKey oracle).reasoning = .jstr s ∧ s ≠ "") ∧
    (∀ e, oracle = .error e →
      (analyzeCompanyRelevance apiKey oracle).isRelevant = none ∧
      (analyzeCompanyRelevance apiKey oracle).score = 0 ∧
      ∃ s, (analyzeCompanyRelevance apiKey oracle).reasoning = .jstr s ∧ s ≠ "") ∧
    (oracle = .ok none →
      (analyzeCompanyRelevance apiKey oracle).isRelevant = none ∧
      (analyzeCompanyRelevance apiKey oracle).score = 0 ∧
      ∃ s, (analyzeCompanyRelevance apiKey oracle).reasoning = .jstr s ∧ s ≠ "") := by
  by_cases hk : hasApiKey apiKey = false
  · refine ⟨fun _ => ?_, fun e _ => ?_, fun _ => ?_⟩ <;>
      simp [analyzeCompanyRelevance, hk, failVerdict]
  · refine ⟨fun h => absurd h hk, fun e he => ?_, fun ho => ?_⟩
    · subst he
      simp only [analyzeCompanyRelevance, hk, if_false]
      refine ⟨rfl, rfl, "Analysis failed: " ++ e, rfl, ?_⟩
      exact append_ne_empty "Analysis failed: " e (by decide)
    · subst ho
      simp only [analyzeCompanyRelevance, hk, if_false]
      exact ⟨rfl, rfl, "Failed to parse AI response", rfl, by decide⟩

/-- C2 witness: with no credential configured, the verdict on any oracle
outcome is the unknown one. -/
theorem claim_C2_witness :
    (analyzeCompanyRelevance none (.ok none)).isRelevant = none ∧
    (analyzeCompanyRelevance none (.ok none)).score = 0 := by
  have h := (claim_C2 none (.ok none)).1 rfl
  exact ⟨h.1, h.2.1⟩

/-! ## C3: numeric coercion in `parseAnalysisResponse` -/

/-- A syntactically valid oracle response whose numbers are outside the
documented ranges (`confidence` 0-100, `score` 0-10). -/
def c3Resp : JsonVal :=
  .jobj [("isRelevant", .jbool true), ("confidence", .jnum 500),
         ("score", .jnum 15), ("reasoning", .jstr "r")]

/-- C3 counterexample: out-of-range numeric fields are passed through
unclamped — `confidence = 500` and `score = 15` survive parsing, so the
parsed verdict is neither clamped to its documented range nor mapped to 0. -/
theorem claim_C3_counterexample :
    (parseAnalysisResponse (some c3Resp)).confidence = 500 ∧
    ¬ (parseAnalysisResponse (some c3Resp)).confidence ≤ 100 ∧
    (parseAnalysisResponse (some c3Resp)).score = 15 ∧
    ¬ (parseAnalysisResponse (some c3Resp)).score ≤ 10 := by
  refine ⟨by decide, by decide, by decide, by decide⟩

/-- C3 amended: `confidence` is coerced with `parseInt` (truncation toward
zero) and `score` with `parseFloat`; malformed values fall back to 0; but no
clamping is applied — any numeric value, in range or not, is passed through
unchanged. -/
theorem claim_C3_amended (c : ℤ) (q : ℚ) :
    (parseAnalysisResponse
      (some (.jobj [("confidence", .jnum c), ("score", .jnum q)]))).confidence = c ∧
    (parseAnalysisResponse
      (some (.jobj [("confidence", .jnum c), ("score", .jnum q)]))).score = q ∧
    (parseAnalysisResponse
      (some (.jobj [("confidence", .jbool true), ("score", .jbool true)]))).confidence = 0 ∧
    (parseAnalysisResponse
      (some (.jobj [("confidence", .jbool true), ("score", .jbool true)]))).score = 0 := by
  refine ⟨?_, ?_, by decide, by decide⟩
  · simp [parseAnalysisResponse, getField, jsParseIntJ, truncInt, List.lookup]
  · simp [parseAnalysisResponse, getField, jsParseFloatJ, List.lookup]

/-! ## C5: url normalization and the fetch guard -/

/-- A network oracle that succeeds on every url, used to observe whether the
fetch guard consults the network at all. -/
def netW : String → Option ScrapedData :=
  fun u => some ⟨u, "t", "d", "h", "c", "at"⟩

/-- C5 counterexample: on the bare domain `"acme.com"` the Fetcher returns
`null` without fetching — it does not return what a normalize-then-fetch
would (`netW "https://acme.com"`), so `scrapeWebsite` itself treats a bare
domain as invalid rather than prepending `https://`. -/
theorem claim_C5_counterexample :
    scrapeWebsite netW "acme.com" = none ∧
    scrapeWebsite netW "acme.com" ≠ netW ("https://" ++ "acme.com") ∧
    netW ("https://" ++ "acme.com") ≠ none := by
  refine ⟨by decide, by decide, by decide⟩

/-- C5 amended: for any input without an `http` prefix the Fetcher
(`scrapeWebsite`) returns `null` without fetching; the `https://` prepending
is performed by the parallel topic matcher (`resolveFullUrl`, inside
`filterCompaniesByTopicParallel`) before it invokes the Fetcher. -/
theorem claim_C5_amended (net : String → Option ScrapedData) (url : String)
    (h : jsStartsWith url "http" = false) :
    scrapeWebsite net url = none ∧ resolveFullUrl url = "https://" ++ url := by
  constructor
  · simp [scrapeWebsite, h]
  · have h1 : jsStartsWith url "http://" = false := by
      cases hh : jsStartsWith url "http://"
      · rfl
      · have h3 : jsStartsWith url "http" = true :=
          startsWithL_of_append "http".data "://".data url.data hh
        rw [h3] at h
        cases h
    have h2 : jsStartsWith url "https://" = false := by
      cases hh : jsStartsWith url "https://"
      · rfl
      · have h3 : jsStartsWith url "http" = true :=
          startsWithL_of_append "http".data "s://".data url.data hh
        rw [h3] at h
        cases h
    simp [resolveFullUrl, h1, h2]

/-- C5 witness: the amended claim at the concrete bare domain. -/
theorem claim_C5_witness :
    scrapeWebsite netW "acme.com" = none ∧
    resolveFullUrl "acme.com" = "https://" ++ "acme.com" :=
  claim_C5_amended netW "acme.com" (by decide)

/-! ## C8: cache upsert/lookup round trip and freshness -/

/-- C8: after `upsert`, the row is stored under `(domain, topic)` with the
upserted analysis and score; `findByDomain` returns exactly that row while
the row's age (measured from its `created_at`) is inside the 7-day window,
and reports a miss once the window is exceeded, even though the row is still
in the store. -/
theorem claim_C8 (st : Store) (now : ℤ) (domain analysisData : String)
    (relevanceScore : ℚ) (topic : String) (now2 : ℤ) (st2 : Store) (row : CacheRow)
    (h : WebsiteAnalysisCache.upsert st now domain analysisData relevanceScore topic
          = (st2, row)) :
    (now2 - row.created_at < freshnessWindow →
      (WebsiteAnalysisCache.findByDomain st2 now2 domain topic).2 = some row) ∧
    (freshnessWindow ≤ now2 - row.created_at →
      (WebsiteAnalysisCache.findByDomain st2 now2 domain topic).2 = none) ∧
    st2 (domain, topic) = some row ∧
    row.analysis_data = analysisData ∧
    row.relevance_score = relevanceScore := by
  have hst2 : st2 = fun k => if k = (domain, topic) then
      some (WebsiteAnalysisCache.upsertRow st now domain analysisData relevanceScore topic)
    else st k := (congrArg Prod.fst h).symm
  have hrow : row
      = WebsiteAnalysisCache.upsertRow st now domain analysisData relevanceScore topic :=
    (congrArg Prod.snd h).symm
  subst hst2
  have hkey : (fun k => if k = (domain, topic) then
      some (WebsiteAnalysisCache.upsertRow st now domain analysisData relevanceScore topic)
    else st k) (domain, topic) = some row := by simp [hrow]
  have hdata : row.analysis_data = analysisData := by
    rw [hrow, WebsiteAnalysisCache.upsertRow]
    cases st (domain, topic) <;> rfl
  have hscore : row.relevance_score = relevanceScore := by
    rw [hrow, WebsiteAnalysisCache.upsertRow]
    cases st (domain, topic) <;> rfl
  refine ⟨?_, ?_, hkey, hdata, hscore⟩
  · intro hf
    rw [WebsiteAnalysisCache.findByDomain, if_pos rfl, ← hrow]
    split
    · rename_i heq
      simp at heq
    · rename_i r heq
      injection heq with hr
      subst hr
      rw [if_pos (by omega)]
  · intro hf
    rw [WebsiteAnalysisCache.findByDomain, if_pos rfl, ← hrow]
    split
    · rfl
    · rename_i r heq
      injection heq with hr
      subst hr
      rw [if_neg (by omega)]

/-- The empty cache table. -/
def emptyStore : Store := fun _ => none

/-- C8 witness: a fresh upsert into the empty store is immediately found. -/
theorem claim_C8_witness :
    (WebsiteAnalysisCache.findByDomain
      (WebsiteAnalysisCache.upsert emptyStore 0 "acme.com" "data" 5 "cloud").1 0
      "acme.com" "cloud").2
    = some (WebsiteAnalysisCache.upsert emptyStore 0 "acme.com" "data" 5 "cloud").2 :=
  (claim_C8 emptyStore 0 "acme.com" "data" 5 "cloud" 0 _ _ rfl).1 (by decide)

/-! ## C9: representation of Unknown versus explicit No -/

/-- A matcher environment whose AI call always throws. -/
def envErr : MatcherEnv := ⟨netW, fun _ _ _ => .error "oracle down"⟩

/-- A matcher environment whose AI call always answers "NO". -/
def envNo : MatcherEnv := ⟨netW, fun _ _ _ => .ok "NO"⟩

/-- A company with a fetchable website. -/
def c9Company : Company := { website := some "https://acme.com" }

/-- C9 counterexample: with the fetch succeeding, an oracle error and an
explicit "NO" answer produce identical results — `checkCompanyTopicRelation`
collapses the error to `false`, so the oracle-error outcome and the
oracle-answered-No outcome are the same value (`isRelated = some false`),
not distinguishable ones. -/
theorem claim_C9_counterexample :
    processCompany envErr "cloud" c9Company 0 = processCompany envNo "cloud" c9Company 0 ∧
    (processCompany envErr "cloud" c9Company 0).isRelated = some false := by
  refine ⟨by decide, by decide⟩

/-- C9 amended: an Unknown arising from fetch failure (or a missing url) is
the JS `null` (`none`), which is distinguishable from an explicit No
(`some false`); but an oracle error inside the binary check is mapped to
`false`, the very value of an explicit No answer. -/
theorem claim_C9_amended (env : MatcherEnv) (topic : String) (c : Company) (i : ℕ)
    (url : String) (h1 : resolveCompanyUrl c = some url)
    (h2 : scrapeWebsite env.net (resolveFullUrl url) = none) :
    (processCompany env topic c i).isRelated = none ∧
    (none : Option Bool) ≠ some false ∧
    (∀ (e : String) (content : String),
      checkCompanyTopicRelation (.error e) content =
        checkCompanyTopicRelation (.ok "NO") content) := by
  refine ⟨?_, by simp, ?_⟩
  · simp [processCompany, relatedOf, h1, h2]
  · intro e content
    rw [checkCompanyTopicRelation, checkCompanyTopicRelation]
    split
    · rfl
    · decide

/-- An environment whose fetches always fail. -/
def envDead : MatcherEnv := ⟨fun _ => none, fun _ _ _ => .ok "YES"⟩

/-- A company whose website cannot be fetched. -/
def c9NoSite : Company := { domain := some "nosite.com" }

/-- C9 witness: fetch failure yields the `null` Unknown. -/
theorem claim_C9_witness :
    (processCompany envDead "cloud" c9NoSite 0).isRelated = none :=
  (claim_C9_amended envDead "cloud" c9NoSite 0 "nosite.com" (by decide) (by decide)).1

/-! ## C10: post filtering returns a subsequence -/

/-- C10: `filterPostsByTopic` always returns a subsequence of its input (the
same post objects in input order), and returns the entire input unchanged
when the credential is missing or the input is empty. -/
theorem claim_C10 (apiKey : Option String)
    (oracle : List Post → Except String (Option (List ℤ)))
    (posts : List Post) (chunkSize : ℕ) :
    (filterPostsByTopic apiKey oracle posts chunkSize).Sublist posts ∧
    (hasApiKey apiKey = false → filterPostsByTopic apiKey oracle posts chunkSize = posts) ∧
    (posts = [] → filterPostsByTopic apiKey oracle posts chunkSize = posts) := by
  rw [filterPostsByTopic]
  split
  · exact ⟨List.Sublist.refl _, fun _ => rfl, fun _ => rfl⟩
  · rename_i hcond
    push_neg at hcond
    refine ⟨List.filter_sublist _, fun hk => absurd hk hcond.1, fun hp => absurd hp hcond.2⟩

/-- C10 witness: with no credential, the input comes back unchanged. -/
theorem claim_C10_witness :
    filterPostsByTopic none (fun _ => .error "down") [⟨1, "a"⟩] 20 = [⟨1, "a"⟩] :=
  (claim_C10 none (fun _ => .error "down") [⟨1, "a"⟩] 20).2.1 rfl

/-! ## C4: content extraction -/

/-- C4 counterexample: a record whose four values are all at most 10
characters long (title 5, the rest 0).  The claim predicts every labeled
section is omitted (empty output); the extractor instead keeps the Title,
Description and Key Sections parts, because the 10-character cut-off is
applied to the labeled string (label plus value), not to the value. -/
theorem claim_C4_counterexample :
    (ScrapedData.mk "u" "Hello" "" "" "" "").title.length ≤ 10 ∧
    (ScrapedData.mk "u" "Hello" "" "" "" "").description.length ≤ 10 ∧
    (ScrapedData.mk "u" "Hello" "" "" "" "").headings.length ≤ 10 ∧
    (ScrapedData.mk "u" "Hello" "" "" "" "").content.length ≤ 10 ∧
    extractTextForAnalysis (some (ScrapedData.mk "u" "Hello" "" "" "" ""))
      = "Title: Hello\n\nDescription: \n\nKey Sections: " ∧
    extractTextForAnalysis (some (ScrapedData.mk "u" "Hello" "" "" "" "")) ≠ "" := by
  refine ⟨by decide, by decide, by decide, by decide, by decide, by decide⟩

/-- C4 amended: the extractor concatenates the labeled fields and omits
exactly those parts whose labeled string (label plus value) is at most 10
characters long — so the Title section is omitted iff the title has at most
3 characters, the Content section iff the truncated content has at most 1
character, and the Description and Key Sections parts are always kept (their
labels alone are longer than 10 characters). -/
theorem claim_C4_amended (d : ScrapedData) :
    extractTextForAnalysis (some d) =
      String.intercalate "\n\n"
        ((if 3 < d.title.length then ["Title: " ++ d.title] else []) ++
         ["Description: " ++ d.description, "Key Sections: " ++ d.headings] ++
         (if 1 < (jsSubstring d.content 2000).length then
            ["Content: " ++ jsSubstring d.content 2000] else [])) := by
  have hT : ("Title: " ++ d.title).length = 7 + d.title.length :=
    String.length_append _ _
  have hD : ("Description: " ++ d.description).length = 13 + d.description.length :=
    String.length_append _ _
  have hK : ("Key Sections: " ++ d.headings).length = 14 + d.headings.length :=
    String.length_append _ _
  have hC : ("Content: " ++ jsSubstring d.content 2000).length
      = 9 + (jsSubstring d.content 2000).length :=
    String.length_append _ _
  have e1 : 10 < ("Title: " ++ d.title).length ↔ 3 < d.title.length := by
    rw [hT]; omega
  have e2 : 10 < ("Description: " ++ d.description).length := by
    rw [hD]; omega
  have e3 : 10 < ("Key Sections: " ++ d.headings).length := by
    rw [hK]; omega
  have e4 : 10 < ("Content: " ++ jsSubstring d.content 2000).length
      ↔ 1 < (jsSubstring d.content 2000).length := by
    rw [hC]; omega
  simp only [extractTextForAnalysis, List.filter_cons, List.filter_nil, decide_eq_true_eq,
    e1, e2, e3, e4, if_true]
  by_cases h1 : 3 < d.title.length <;>
    by_cases h4 : 1 < (jsSubstring d.content 2000).length <;>
    simp [h1, h4]

/-! ## C6: the binary yes/no decision

The check computes `response.trim().toUpperCase().includes('YES')`; the
lemmas below show the `trim` is invisible to the `YES` containment test
(whitespace is fixed by `toUpperCase` and cannot overlap an occurrence of
`YES`), so the decision is exactly case-insensitive substring containment on
the raw response. -/

theorem toUpper_ws (c : Char) (h : jsIsWsChar c = true) : c.toUpper = c := by
  simp only [jsIsWsChar, Bool.or_eq_true, beq_iff_eq] at h
  rcases h with (((rfl | rfl) | rfl) | rfl) <;> decide

theorem map_toUpper_ws (l : List Char) (h : ∀ c ∈ l, jsIsWsChar c = true) :
    l.map Char.toUpper = l := by
  induction l with
  | nil => rfl
  | cons c cs ih =>
    rw [List.map_cons, toUpper_ws c (h c (by simp)), ih (fun x hx => h x (by simp [hx]))]

theorem mem_takeWhile {p : Char → Bool} {l : List Char} :
    ∀ c ∈ l.takeWhile p, p c = true := by
  induction l with
  | nil => simp
  | cons x xs ih =>
    intro c hc
    rw [List.takeWhile_cons] at hc
    by_cases hx : p x = true
    · rw [if_pos hx] at hc
      rcases List.mem_cons.1 hc with rfl | hc
      · exact hx
      · exact ih c hc
    · rw [if_neg hx] at hc
      cases hc

theorem trim_decomp (l : List Char) :
    ∃ a b, l = a ++ trimL l ++ b ∧
      (∀ c ∈ a, jsIsWsChar c = true) ∧ (∀ c ∈ b, jsIsWsChar c = true) := by
  refine ⟨l.takeWhile jsIsWsChar,
    ((l.dropWhile jsIsWsChar).reverse.takeWhile jsIsWsChar).reverse, ?_, ?_, ?_⟩
  · conv_lhs => rw [← List.takeWhile_append_dropWhile (p := jsIsWsChar) (l := l)]
    rw [List.append_assoc]
    congr 1
    conv_lhs => rw [← List.reverse_reverse (l.dropWhile jsIsWsChar)]
    conv_lhs =>
      rw [← List.takeWhile_append_dropWhile (p := jsIsWsChar)
            (l := (l.dropWhile jsIsWsChar).reverse)]
    rw [List.reverse_append]
    rfl
  · exact fun c hc => mem_takeWhile c hc
  · intro c hc
    rw [List.mem_reverse] at hc
    exact mem_takeWhile c hc

theorem strip_ws_front (pat : List Char) (hpat : ∀ c ∈ pat, jsIsWsChar c = false)
    (hne : pat ≠ []) :
    ∀ (a m : List Char), (∀ c ∈ a, jsIsWsChar c = true) →
      (∃ x y, a ++ m = x ++ pat ++ y) → ∃ x y, m = x ++ pat ++ y := by
  intro a
  induction a with
  | nil => intro m _ h; simpa using h
  | cons c as ih =>
    intro m ha h
    obtain ⟨x, y, hxy⟩ := h
    cases x with
    | nil =>
      cases pat with
      | nil => exact absurd rfl hne
      | cons p ps =>
        rw [List.nil_append, List.cons_append, List.cons_append] at hxy
        have hc : c = p := by injection hxy with h1 _
        have h1 : jsIsWsChar c = true := ha c (by simp)
        have h2 : jsIsWsChar p = false := hpat p (by simp)
        rw [hc, h2] at h1
        cases h1
    | cons x0 xs =>
      rw [List.cons_append, List.cons_append, List.cons_append] at hxy
      have htail : as ++ m = xs ++ pat ++ y := by injection hxy
      exact ih m (fun d hd => ha d (by simp [hd])) ⟨xs, y, by simpa using htail⟩

theorem infix_reverse (pat l : List Char) (h : ∃ x y, l = x ++ pat ++ y) :
    ∃ x y, l.reverse = x ++ pat.reverse ++ y := by
  obtain ⟨x, y, rfl⟩ := h
  exact ⟨y.reverse, x.reverse, by simp⟩

theorem contains_wsPad (pat m a b : List Char)
    (hpat : ∀ c ∈ pat, jsIsWsChar c = false) (hne : pat ≠ [])
    (ha : ∀ c ∈ a, jsIsWsChar c = true) (hb : ∀ c ∈ b, jsIsWsChar c = true) :
    containsSubL pat (a ++ m ++ b) = containsSubL pat m := by
  rw [Bool.eq_iff_iff, containsSubL_iff, containsSubL_iff]
  constructor
  · intro h
    have h1 : ∃ x y, m ++ b = x ++ pat ++ y := by
      apply strip_ws_front pat hpat hne a (m ++ b) ha
      obtain ⟨x, y, hxy⟩ := h
      exact ⟨x, y, by simpa [List.append_assoc] using hxy⟩
    have h2 : ∃ x y, (m ++ b).reverse = x ++ pat.reverse ++ y := infix_reverse _ _ h1
    rw [List.reverse_append] at h2
    have h3 : ∃ x y, m.reverse = x ++ pat.reverse ++ y := by
      apply strip_ws_front pat.reverse
        (fun c hc => hpat c (List.mem_reverse.1 hc))
        (fun hn => hne (by simpa using congrArg List.reverse hn))
        b.reverse m.reverse
        (fun c hc => hb c (List.mem_reverse.1 hc))
      exact h2
    have h4 := infix_reverse pat.reverse m.reverse h3
    simpa using h4
  · rintro ⟨x, y, rfl⟩
    exact ⟨a ++ x, y ++ b, by simp [List.append_assoc]⟩

theorem contains_trim_upper (pat l : List Char)
    (hpat : ∀ c ∈ pat, jsIsWsChar c = false) (hne : pat ≠ []) :
    containsSubL pat ((trimL l).map Char.toUpper) = containsSubL pat (l.map Char.toUpper) := by
  obtain ⟨a, b, hl, ha, hb⟩ := trim_decomp l
  conv_rhs => rw [hl]
  rw [List.map_append, List.map_append, map_toUpper_ws a ha, map_toUpper_ws b hb]
  exact (contains_wsPad pat ((trimL l).map Char.toUpper) a b hpat hne ha hb).symm

/-- C6: for every oracle text response (the content guard being passed), the
binary topic check decides true exactly when the response, compared
case-insensitively, contains the substring "YES"; any other response decides
false, and an oracle call error also decides false; as a total function the
check never raises. -/
theorem claim_C6 (response websiteContent : String)
    (h : jsTrim websiteContent ≠ "") :
    (checkCompanyTopicRelation (.ok response) websiteContent = true ↔
      jsIncludes (jsToUpper response) "YES" = true) ∧
    (∀ e, checkCompanyTopicRelation (.error e) websiteContent = false) := by
  have hguard : ¬(websiteContent = "" ∨ jsTrim websiteContent = "") := by
    rintro (rfl | hw)
    · exact h rfl
    · exact h hw
  have key : jsIncludes (jsToUpper (jsTrim response)) "YES"
      = jsIncludes (jsToUpper response) "YES" :=
    contains_trim_upper "YES".data response.data (by decide) (by decide)
  constructor
  · rw [checkCompanyTopicRelation, if_neg hguard]
    show jsIncludes (jsToUpper (jsTrim response)) "YES" = true ↔
      jsIncludes (jsToUpper response) "YES" = true
    rw [key]
  · intro e
    rw [checkCompanyTopicRelation, if_neg hguard]

/-- C6 witness: a concrete lowercase "yes" response is accepted, an oracle
error is rejected. -/
theorem claim_C6_witness :
    jsTrim "hello" ≠ "" ∧
    checkCompanyTopicRelation (.ok "yes indeed") "hello" = true ∧
    checkCompanyTopicRelation (.error "down") "hello" = false :=
  ⟨by decide,
   (claim_C6 "yes indeed" "hello" (by decide)).1.mpr (by decide),
   (claim_C6 "yes indeed" "hello" (by decide)).2 "down"⟩

/-! ## C7: the parallel topic matcher -/

/-- The binary verdict of a single company, independent of its position in
the batch (all three return sites of `processCompany` carry the company and
index through unchanged). -/
def isYes (env : MatcherEnv) (topic : String) (c : Company) : Bool :=
  relatedOf env topic c == some true

theorem mem_enumFrom_le {α : Type} :
    ∀ (n : ℕ) (l : List α) (p : ℕ × α), p ∈ List.enumFrom n l → n ≤ p.1 := by
  intro n l
  induction l generalizing n with
  | nil => simp [List.enumFrom]
  | cons x xs ih =>
    intro p hp
    simp only [List.enumFrom] at hp
    rcases List.mem_cons.1 hp with rfl | hp
    · simp
    · have := ih (n + 1) p hp
      omega

theorem procResults_pairwise (env : MatcherEnv) (topic : String) :
    ∀ (n : ℕ) (cs : List Company),
      ((List.enumFrom n cs).map (fun ic => processCompany env topic ic.2 ic.1)).Pairwise
        (fun a b => decide (a.index ≤ b.index) = true) := by
  intro n cs
  induction cs generalizing n with
  | nil => simp [List.enumFrom]
  | cons c cs ih =>
    simp only [List.enumFrom, List.map_cons, List.pairwise_cons]
    constructor
    · intro r hr
      simp only [List.mem_map] at hr
      obtain ⟨p, hp, rfl⟩ := hr
      have hle : n + 1 ≤ p.1 := mem_enumFrom_le _ _ _ hp
      simp only [processCompany, decide_eq_true_eq]
      omega
    · exact ih (n + 1)

theorem procResults_filter (env : MatcherEnv) (topic : String) :
    ∀ (n : ℕ) (cs : List Company),
      ((((List.enumFrom n cs).map (fun ic => processCompany env topic ic.2 ic.1)).filter
          (fun r => r.isRelated == some true)).map (fun r => r.company))
        = cs.filter (fun c => isYes env topic c) := by
  intro n cs
  induction cs generalizing n with
  | nil => simp [List.enumFrom]
  | cons c cs ih =>
    have hcond : ((processCompany env topic c n).isRelated == some true)
        = isYes env topic c := rfl
    have hcomp : (processCompany env topic c n).company = c := rfl
    simp only [List.enumFrom, List.map_cons, List.filter_cons, hcond]
    cases hc : isYes env topic c
    · simp only [hc, Bool.false_eq_true, if_false]
      exact ih (n + 1)
    · simp only [hc, if_true]
      rw [List.map_cons, hcomp, ih (n + 1)]

/-- C7: for every company list, the parallel matcher returns exactly the
companies whose binary verdict is Yes, in their original input order (the
index-keyed sort is the identity because windowed processing preserves the
enumeration order); a company with no resolvable website url has verdict
`null`, is excluded, and nothing raises. -/
theorem claim_C7 (env : MatcherEnv) (topic : String) (companies : List Company)
    (maxConcurrent : ℕ) (_hk : 0 < maxConcurrent) :
    filterCompaniesByTopicParallel env topic companies maxConcurrent
      = companies.filter (fun c => isYes env topic c) ∧
    (∀ c, resolveCompanyUrl c = none → isYes env topic c = false) := by
  constructor
  · rw [filterCompaniesByTopicParallel]
    split
    · rename_i hnil
      simp [hnil]
    · rw [processChunks_map]
      show (((jsSort (fun a b => decide (a.index ≤ b.index))
          ((List.enumFrom 0 companies).map
            (fun ic => processCompany env topic ic.2 ic.1))).filter
          (fun r => r.isRelated == some true)).map (fun r => r.company))
        = companies.filter (fun c => isYes env topic c)
      rw [jsSort_eq_self _ _ (procResults_pairwise env topic 0 companies)]
      exact procResults_filter env topic 0 companies
  · intro c hc
    simp [isYes, relatedOf, hc]

/-- A concrete matcher environment: one fetchable site, an oracle that
answers "YES". -/
def env7 : MatcherEnv :=
  ⟨fun u => if u = "https://acme.com" then
      some ⟨u, "Cloud Platform", "d", "h", "c", "at"⟩
    else none,
   fun _ _ _ => .ok "YES"⟩

/-- A company with a fetchable website. -/
def c7Yes : Company := { website := some "https://acme.com" }

/-- A company without any website field. -/
def c7None : Company := {}

/-- C7 witness: the matcher keeps exactly the Yes company and drops the
company without a url. -/
theorem claim_C7_witness :
    filterCompaniesByTopicParallel env7 "cloud" [c7Yes, c7None] 10 = [c7Yes] ∧
    isYes env7 "cloud" c7None = false :=
  ⟨((claim_C7 env7 "cloud" [c7Yes, c7None] 10 (by decide)).1).trans (by decide),
   (claim_C7 env7 "cloud" [c7Yes, c7None] 10 (by decide)).2 c7None rfl⟩

/-! ## C1: batch capping and score filtering in the enrichment pipeline -/

theorem length_scrapeStage (env : PipelineEnv) (l : List Lead) :
    (scrapeStage env l).length = l.length := by
  simp only [scrapeStage]
  split
  · rfl
  · exact List.length_map _ _

theorem length_analyzeCompanies (env : PipelineEnv) (companies : List Lead) (topic : String) :
    (analyzeCompanies env companies topic).length = companies.length := by
  simp only [analyzeCompanies]
  rw [length_jsSort, List.length_map]

/-- C1: every successful enrichment response contains at most
`min(len(leads), 50)` leads (only the first 50 are processed, as
`total_processed` records), and when AI analysis is enabled every returned
lead's `relevanceScore` is at least the requested `min_relevance_score`
(default 5). -/
theorem claim_C1 (env : PipelineEnv) (req : EnrichRequest) (resp : EnrichResponse)
    (h : enrichLeads env req = .ok resp) :
    resp.data.length ≤ min req.leads.length 50 ∧
    resp.metadata.total_processed = min req.leads.length 50 ∧
    (req.enable_ai_analysis.getD true = true →
      ∀ l ∈ resp.data, req.min_relevance_score.getD 5 ≤ l.relevanceScore.getD 0) := by
  simp only [enrichLeads] at h
  split at h
  · simp at h
  · split at h
    · simp at h
    · injection h with h2
      subst h2
      refine ⟨?_, rfl, ?_⟩
      · dsimp only
        rw [length_jsSort]
        apply le_trans (List.length_filter_le _ _)
        split
        · rw [length_analyzeCompanies]
          split
          · rw [length_scrapeStage, List.length_take]
            omega
          · rw [List.length_take]
            omega
        · split
          · rw [length_scrapeStage, List.length_take]
            omega
          · rw [List.length_take]
            omega
      · intro hai l hl
        dsimp only at hl
        rw [mem_jsSort, List.mem_filter] at hl
        have hp := hl.2
        simp only [hai, Bool.not_true, Bool.false_or, decide_eq_true_eq] at hp
        exact hp

/-- A pipeline environment with no credential and no reachable network. -/
def env1 : PipelineEnv := ⟨fun _ => none, fun _ _ _ => .error "down", none⟩

/-- A one-lead request with scraping disabled and the analysis defaults. -/
def req1 : EnrichRequest :=
  { leads := [{}], topic := some "cloud", enable_website_scraping := some false }

/-- C1 witness: the single unconfigured lead scores 0 and is filtered out at
the default threshold 5; the response is well-formed and within the cap. -/
theorem claim_C1_witness :
    ∃ resp, enrichLeads env1 req1 = .ok resp ∧
      resp.data.length ≤ min req1.leads.length 50 ∧
      resp.metadata.total_processed = min req1.leads.length 50 ∧
      (∀ l ∈ resp.data, (5 : ℚ) ≤ l.relevanceScore.getD 0) := by
  refine ⟨_, rfl, (claim_C1 env1 req1 _ rfl).1, (claim_C1 env1 req1 _ rfl).2.1, ?_⟩
  exact (claim_C1 env1 req1 _ rfl).2.2 rfl
